import Mathlib

/-!
Verification of the `SecurityConferenceCrawler` (src/tool.py) against its
specification.  The Python class is shallowly embedded: network and
filesystem effects become explicit environment records, library helpers
(`urllib.parse.urljoin`, `os.path.basename ∘ urlparse(...).path`) become
function parameters, and the HTML document is modelled as the list of its
anchor elements in document order (the result of BeautifulSoup's
`find_all('a')`).
-/

namespace Crawler

/-- An anchor (`<a>`) element of the listing page, as returned by
`soup.find_all('a')`: `href` is `none` when the attribute is missing
(Python's `link.get('href', '')` then yields `''`), and `text` is the
visible text `link.get_text()`. -/
structure Anchor where
  href : Option String
  text : String
  deriving DecidableEq, Repr

/-- The characters the regex `[<>:"/\\|?*]` in `extract_pdf_links`
replaces: characters illegal in filenames. -/
def badChars : List Char := ['<', '>', ':', '"', '/', '\\', '|', '?', '*']

/-- One step of `re.sub(r'[<>:"/\\|?*]', '_', title)`: a character in the
class is replaced by `'_'`, any other character is kept. -/
def sanitizeChar (c : Char) : Char := if c ∈ badChars then '_' else c

/-- `re.sub(r'[<>:"/\\|?*]', '_', title)`: character-by-character
replacement of the illegal characters by `'_'`. -/
def sanitize (s : String) : String := String.mk (s.data.map sanitizeChar)

/-- Python's `pat in s` substring test on strings. -/
def hasSub (s pat : String) : Bool := decide (pat.data <:+: s.data)

/-- Python's `str.lower()` on one character (ASCII case mapping, which is
all the crawler's URLs and content types use). -/
def pyLowerChar (c : Char) : Char :=
  if 'A' ≤ c ∧ c ≤ 'Z' then Char.ofNat (c.toNat + 32) else c

/-- Python's `str.lower()`. -/
def pyLower (s : String) : String := String.mk (s.data.map pyLowerChar)

/-- Python's `s.endswith(suffix)`. -/
def pyEndsWith (s suffix : String) : Bool := decide (suffix.data <:+ s.data)

/-- Python's `str.strip()`: remove leading and trailing whitespace. -/
def pyStrip (s : String) : String :=
  String.mk
    (((s.data.dropWhile Char.isWhitespace).reverse.dropWhile
        Char.isWhitespace).reverse)

/-- The loose PDF heuristic of `extract_pdf_links` applied to a raw
`href` value: `href.lower().endswith('.pdf') or 'pdf' in href.lower()`. -/
def isPdfHref (href : String) : Bool :=
  pyEndsWith (pyLower href) ".pdf" || hasSub (pyLower href) "pdf"

/-- `SecurityConferenceCrawler.extract_pdf_links`, embedded over the list
of anchors of the parsed document.  `uj` models `urljoin` (library code:
resolves an href against the base URL) and `bnp` models
`os.path.basename(urlparse(full_url).path)` (library code: the final path
segment of an absolute URL).  Mirrors the Python loop: anchors with a
missing or empty `href` are skipped (`if not href: continue`), the title
is the stripped anchor text or, when that is empty, the basename of the
resolved URL's path, sanitized; the pair is emitted when the href passes
the PDF heuristic. -/
def extract_pdf_links (uj : String → String → String) (bnp : String → String)
    (anchors : List Anchor) (base : String) : List (String × String) :=
  match anchors with
  | [] => []
  | a :: rest =>
    let href := a.href.getD ""
    if href = "" then extract_pdf_links uj bnp rest base
    else
      let fullUrl := uj base href
      let title0 := pyStrip a.text
      let title1 := if title0 = "" then bnp fullUrl else title0
      let title := sanitize title1
      if isPdfHref href then
        (fullUrl, title) :: extract_pdf_links uj bnp rest base
      else
        extract_pdf_links uj bnp rest base

/-- The (url, title) pair `extract_pdf_links` builds for one anchor. -/
def anchorEntry (uj : String → String → String) (bnp : String → String)
    (base : String) (a : Anchor) : String × String :=
  let fullUrl := uj base (a.href.getD "")
  let title0 := pyStrip a.text
  (fullUrl, sanitize (if title0 = "" then bnp fullUrl else title0))

/-- An anchor contributes an entry iff its raw href passes the PDF
heuristic (an empty or missing href never does: `""` neither ends in
`.pdf` nor contains `"pdf"`). -/
def anchorSelected (a : Anchor) : Bool := isPdfHref (a.href.getD "")

theorem isPdfHref_empty : isPdfHref "" = false := by decide

/-- Normal form of the extractor: filter the anchors by the PDF
heuristic, in document order, and build one entry per kept anchor. -/
theorem extract_pdf_links_eq_filter_map (uj : String → String → String)
    (bnp : String → String) (anchors : List Anchor) (base : String) :
    extract_pdf_links uj bnp anchors base =
      (anchors.filter anchorSelected).map (anchorEntry uj bnp base) := by
  induction anchors with
  | nil => rfl
  | cons a rest ih =>
    by_cases h0 : a.href.getD "" = ""
    · have hsel : anchorSelected a = false := by
        simp [anchorSelected, h0, isPdfHref_empty]
      simp [extract_pdf_links, h0, List.filter_cons, hsel, ih]
    · by_cases hp : isPdfHref (a.href.getD "") = true
      · have hsel : anchorSelected a = true := hp
        simp only [extract_pdf_links, h0, if_false, hp, if_true,
          List.filter_cons, hsel, List.map_cons, ih]
        rfl
      · have hsel : anchorSelected a = false := by
          simpa [anchorSelected] using hp
        simp only [extract_pdf_links, h0, if_false, hsel,
          Bool.false_eq_true, List.filter_cons, ih]
        rw [if_neg hp]

/-- The observable outcome of the header probe `session.head(url, timeout=10)`:
`status` is `response.status_code` and `contentType` is
`response.headers.get('Content-Type', '')`. -/
structure HeadResp where
  status : Nat
  contentType : String
  deriving DecidableEq, Repr

/-- `SecurityConferenceCrawler.verify_pdf_link`.  The probe outcome is
`none` when `session.head` raises a `requests` exception (timeout, DNS
failure, connection refused), in which case the `except` clause returns
`False`; otherwise the declared content type is lowercased and the link
is valid iff the status is 200 and the content type contains `"pdf"` or
the URL lowercased ends in `".pdf"`. -/
def verify_pdf_link (head : Option HeadResp) (url : String) : Bool :=
  match head with
  | none => false
  | some r =>
    (r.status == 200) &&
      (hasSub (pyLower r.contentType) "pdf" || pyEndsWith (pyLower url) ".pdf")

/-- Network and filesystem events `download_paper` can cause, in order. -/
inductive DlEvent where
  | headProbe  -- the validation HEAD request of verify_pdf_link
  | bodyFetch  -- the full-body session.get
  | fileWrite  -- opening the target file for writing
  deriving DecidableEq, Repr

/-- How the `try` block of `download_paper` ends: a normal `return b`,
or an exception reaching the `except` clause. -/
inductive TryResult where
  | normal (b : Bool)
  | raised
  deriving DecidableEq, Repr

/-- The environment a single `download_paper` call runs against:
the header-probe outcome seen by `verify_pdf_link`, the body fetch
(`.error ()` when `session.get`/`raise_for_status`/`iter_content`
raises, `.ok bytes` for a successful streamed body), whether the file
write raises, and the bytes on disk when a failing write is interrupted
part-way. -/
structure DownloadEnv where
  head : Option HeadResp
  getBody : Except Unit (List Nat)
  writeFails : Bool
  partialBytes : List Nat
  deriving Repr

/-- Result of a `download_paper` call: the returned boolean, the events
performed in order, and the resulting contents at the target path
(`none` = no file there). -/
structure DlResult where
  ok : Bool
  events : List DlEvent
  file : Option (List Nat)
  deriving DecidableEq, Repr

/-- The `try` block of `SecurityConferenceCrawler.download_paper` over a
target path whose current contents are `file` (`file.isSome` is
`os.path.exists(filepath)`).  Mirrors the source order: validate first
(the HEAD probe always happens), then the existence check, then the
streaming GET, then the chunked write. -/
def downloadPaperBody (env : DownloadEnv) (url : String)
    (file : Option (List Nat)) : TryResult × List DlEvent × Option (List Nat) :=
  if !(verify_pdf_link env.head url) then
    (.normal false, [.headProbe], file)
  else if file.isSome then
    (.normal true, [.headProbe], file)
  else
    match env.getBody with
    | .error _ => (.raised, [.headProbe, .bodyFetch], file)
    | .ok body =>
      if env.writeFails then
        (.raised, [.headProbe, .bodyFetch, .fileWrite], some env.partialBytes)
      else
        (.normal true, [.headProbe, .bodyFetch, .fileWrite], some body)

/-- `SecurityConferenceCrawler.download_paper`: the `try` block wrapped
in the `except Exception` clause, which logs and returns `False`. -/
def download_paper (env : DownloadEnv) (url : String)
    (file : Option (List Nat)) : DlResult :=
  match downloadPaperBody env url file with
  | (.normal b, evs, f) => ⟨b, evs, f⟩
  | (.raised, evs, f) => ⟨false, evs, f⟩

/-- `SecurityConferenceCrawler.process_conference`.  `fetch` is the
listing-page GET followed by `raise_for_status` (`.error ()` when it
raises a `requests` exception: timeout, connection error, non-2xx
status), yielding the parsed anchors of `response.text`.  `dl` gives the
boolean result of `download_paper` for each extracted (url, title) pair
(`download_paper` is total, see its model above).  Successes are counted
over the extracted links in order. -/
def process_conference (uj : String → String → String) (bnp : String → String)
    (fetch : Except Unit (List Anchor)) (url : String)
    (dl : String → String → Bool) : Nat :=
  match fetch with
  | .error _ => 0
  | .ok anchors =>
    ((extract_pdf_links uj bnp anchors url).filter fun p => dl p.1 p.2).length

/-- Python's `str(year)[-2:]`: the last two characters of the decimal
representation (the whole string when shorter). -/
def lastTwoDigits (year : Nat) : String :=
  String.mk ((toString year).data.reverse.take 2).reverse

/-- The USENIX Security listing-URL template of `generate_conference_urls`. -/
def usenixUrl (year : Nat) : String :=
  "https://www.usenix.org/conference/usenixsecurity" ++ lastTwoDigits year
    ++ "/technical-sessions"

/-- The IEEE S&P listing-URL template of `generate_conference_urls`. -/
def spUrl (year : Nat) : String :=
  "https://www.ieee-security.org/TC/SP" ++ toString year ++ "/program.html"

/-- The ACM CCS listing-URL template of `generate_conference_urls`. -/
def ccsUrl (year : Nat) : String :=
  "https://www.sigsac.org/ccs/CCS" ++ toString year ++ "/accepted-papers.html"

/-- The NDSS listing-URL template of `generate_conference_urls`. -/
def ndssUrl (year : Nat) : String :=
  "https://www.ndss-symposium.org/" ++ toString year ++ "/accepted-papers/"

/-- Python's `range(2010, current_year + 1)` of `generate_conference_urls`. -/
def yearsRange (currentYear : Nat) : List Nat :=
  List.range' 2010 (currentYear + 1 - 2010)

/-- `SecurityConferenceCrawler.generate_conference_urls`: one URL list
per conference, keyed in the dict's insertion order USENIX, SP, CCS,
NDSS, each list built by appending the per-year template over
`range(start_year, current_year + 1)` with `start_year = 2010`. -/
def generate_conference_urls (currentYear : Nat) : List (String × List String) :=
  [("USENIX", (yearsRange currentYear).map usenixUrl),
   ("SP", (yearsRange currentYear).map spUrl),
   ("CCS", (yearsRange currentYear).map ccsUrl),
   ("NDSS", (yearsRange currentYear).map ndssUrl)]

/-- The inner loop of `SecurityConferenceCrawler.run` over one
conference's URL list: `for i, url in enumerate(urls)`, with
`year = 2010 + i` and `break` once `year > current_year`; returns the
years attempted, in loop order. -/
def runYears (currentYear : Nat) : Nat → List String → List Nat
  | _, [] => []
  | i, _ :: rest =>
    if 2010 + i > currentYear then []
    else (2010 + i) :: runYears currentYear (i + 1) rest

/-- `SecurityConferenceCrawler.run`, observed as the list of
(conference, year) pairs attempted (each such pair is one
`process_conference` call), in execution order. -/
def runAttempts (currentYear : Nat) : List (String × Nat) :=
  (generate_conference_urls currentYear).flatMap fun p =>
    (runYears currentYear 0 p.2).map fun y => (p.1, y)

/-! ## Claim theorems -/

/-- C1 (counterexample).  The claim says an existing target makes
`download_paper` return `true` with no network calls; but the source
validates *before* the existence check, so with the file present and the
probe failing the call returns `false`, and the HEAD probe (a network
call) is issued. -/
theorem download_paper_existing_counterexample :
    (download_paper ⟨none, Except.ok [], false, []⟩ "http://e.com/a.pdf"
        (some [7])).ok = false ∧
      (some [7] : Option (List Nat)).isSome = true ∧
      DlEvent.headProbe ∈
        (download_paper ⟨none, Except.ok [], false, []⟩ "http://e.com/a.pdf"
          (some [7])).events := by
  refine ⟨rfl, rfl, ?_⟩
  rw [show (download_paper ⟨none, Except.ok [], false, []⟩ "http://e.com/a.pdf"
      (some [7])).events = [DlEvent.headProbe] from rfl]
  exact List.mem_singleton.mpr rfl

/-- C1 (amended).  When the target file already exists, `download_paper`
still issues the validation HEAD probe and returns its verdict: `true`
when validation passes (with no body fetch, no write, and the file's
contents untouched), `false` when validation fails. -/
theorem download_paper_existing_spec (env : DownloadEnv) (url : String)
    (file : Option (List Nat)) (h : file.isSome = true) :
    (download_paper env url file).file = file ∧
      (download_paper env url file).events = [DlEvent.headProbe] ∧
      (download_paper env url file).ok = verify_pdf_link env.head url := by
  cases hv : verify_pdf_link env.head url <;>
    simp [download_paper, downloadPaperBody, hv, h]

/-- C1 witness: an existing file together with a passing probe. -/
theorem download_paper_existing_spec_witness :
    (download_paper ⟨some ⟨200, "application/pdf"⟩, Except.ok [9], false, []⟩
        "http://e.com/x" (some [7])).file = some [7] ∧
      (download_paper ⟨some ⟨200, "application/pdf"⟩, Except.ok [9], false, []⟩
        "http://e.com/x" (some [7])).events = [DlEvent.headProbe] ∧
      (download_paper ⟨some ⟨200, "application/pdf"⟩, Except.ok [9], false, []⟩
        "http://e.com/x" (some [7])).ok =
        verify_pdf_link (some ⟨200, "application/pdf"⟩) "http://e.com/x" :=
  download_paper_existing_spec
    ⟨some ⟨200, "application/pdf"⟩, Except.ok [9], false, []⟩
    "http://e.com/x" (some [7]) rfl

/-- C2.  `verify_pdf_link` is a total function (it never propagates an
error); a failed probe yields `false`, and it returns `true` exactly
when the probe completed with status 200 and the lowercased content type
contains "pdf" or the lowercased URL ends in ".pdf". -/
theorem verify_pdf_link_spec (head : Option HeadResp) (url : String) :
    verify_pdf_link none url = false ∧
      (verify_pdf_link head url = true ↔
        ∃ r, head = some r ∧ r.status = 200 ∧
          (hasSub (pyLower r.contentType) "pdf" = true ∨
            pyEndsWith (pyLower url) ".pdf" = true)) := by
  refine ⟨rfl, ?_⟩
  cases head with
  | none => simp [verify_pdf_link]
  | some r =>
    simp only [verify_pdf_link, Bool.and_eq_true, Bool.or_eq_true, beq_iff_eq]
    constructor
    · rintro ⟨hs, hc⟩; exact ⟨r, rfl, hs, hc⟩
    · rintro ⟨r', hr', hs, hc⟩
      cases Option.some.inj hr'
      exact ⟨hs, hc⟩

/-- C2 witness: a timed-out probe on a concrete URL yields `false`. -/
theorem verify_pdf_link_spec_witness :
    verify_pdf_link none "http://conf.org/p.pdf" = false :=
  (verify_pdf_link_spec none "http://conf.org/p.pdf").1

/-- C4.  Whenever the `try` block of `download_paper` ends in an
exception (body fetch or file write raising), the call returns `false`
rather than propagating the exception. -/
theorem download_paper_never_raises (env : DownloadEnv) (url : String)
    (file : Option (List Nat))
    (h : (downloadPaperBody env url file).1 = TryResult.raised) :
    (download_paper env url file).ok = false := by
  unfold download_paper
  rcases hb : downloadPaperBody env url file with ⟨tr, evs, f⟩
  cases tr with
  | normal b => rw [hb] at h; exact absurd h (by simp)
  | raised => rfl

/-- C4 witness: a failing body fetch after a passing probe. -/
theorem download_paper_never_raises_witness :
    (download_paper ⟨some ⟨200, "application/pdf"⟩, Except.error (), false, []⟩
        "http://e.com/x" none).ok = false :=
  download_paper_never_raises
    ⟨some ⟨200, "application/pdf"⟩, Except.error (), false, []⟩
    "http://e.com/x" none (by decide)

/-- C6.  When the listing-page fetch raises (timeout, connection error,
non-2xx status), `process_conference` returns a success count of zero
instead of propagating the exception. -/
theorem process_conference_listing_failure (uj : String → String → String)
    (bnp : String → String) (url : String) (dl : String → String → Bool) :
    process_conference uj bnp (Except.error ()) url dl = 0 := rfl

/-- C8.  `download_paper` issues the body GET only after validation
succeeded: a `bodyFetch` event implies `verify_pdf_link` returned
`true`; and when validation fails the call returns `false` having
performed only the probe and leaving the filesystem untouched. -/
theorem download_paper_validation_gate (env : DownloadEnv) (url : String)
    (file : Option (List Nat)) :
    (DlEvent.bodyFetch ∈ (download_paper env url file).events →
        verify_pdf_link env.head url = true) ∧
      (verify_pdf_link env.head url = false →
        download_paper env url file = ⟨false, [DlEvent.headProbe], file⟩) := by
  cases hv : verify_pdf_link env.head url with
  | false =>
    refine ⟨fun hmem => ?_, fun _ => by simp [download_paper, downloadPaperBody, hv]⟩
    rw [show (download_paper env url file).events = [DlEvent.headProbe] by
      simp [download_paper, downloadPaperBody, hv]] at hmem
    exact absurd hmem (by decide)
  | true => exact ⟨fun _ => rfl, fun hc => by simp at hc⟩

/-- `sanitizeChar` never produces one of the illegal characters. -/
theorem sanitizeChar_not_bad (c : Char) : sanitizeChar c ∉ badChars := by
  by_cases h : c ∈ badChars
  · simpa [sanitizeChar, h] using (by decide : '_' ∉ badChars)
  · simp [sanitizeChar, h]

/-- No character of a sanitized string is illegal. -/
theorem sanitize_no_bad (s : String) : ∀ c ∈ (sanitize s).data, c ∉ badChars := by
  intro c hc
  rcases List.mem_map.mp hc with ⟨c', _, rfl⟩
  exact sanitizeChar_not_bad c'

/-- C3.  The extractor returns exactly one entry per anchor whose href
passes the PDF heuristic (ends in ".pdf" or contains "pdf",
case-insensitively), none for any other anchor, in document order; in
particular it returns exactly as many entries as there are such
anchors. -/
theorem extract_pdf_links_filter_spec (uj : String → String → String)
    (bnp : String → String) (anchors : List Anchor) (base : String) :
    extract_pdf_links uj bnp anchors base =
        ((anchors.filter fun a => isPdfHref (a.href.getD "")).map
          (anchorEntry uj bnp base)) ∧
      (extract_pdf_links uj bnp anchors base).length =
        (anchors.filter fun a => isPdfHref (a.href.getD "")).length := by
  have h := extract_pdf_links_eq_filter_map uj bnp anchors base
  exact ⟨h, by rw [h, List.length_map]; rfl⟩

/-- C9.  Every returned title comes from some anchor as its stripped
visible text or, when that is empty, the basename of the resolved URL's
path, sanitized; consequently no returned title contains any of the
characters `< > : " / \ | ? *`. -/
theorem extract_pdf_links_title_spec (uj : String → String → String)
    (bnp : String → String) (anchors : List Anchor) (base : String) :
    ∀ p ∈ extract_pdf_links uj bnp anchors base,
      (∃ a ∈ anchors,
        p.2 = sanitize (if pyStrip a.text = "" then
          bnp (uj base (a.href.getD "")) else pyStrip a.text)) ∧
      ∀ c ∈ p.2.data, c ∉ badChars := by
  intro p hp
  rw [extract_pdf_links_eq_filter_map] at hp
  rcases List.mem_map.mp hp with ⟨a, ha, rfl⟩
  refine ⟨⟨a, List.mem_of_mem_filter ha, rfl⟩, ?_⟩
  exact sanitize_no_bad _

/-- C9 witness: a single anchor with an illegal character in its text. -/
theorem extract_pdf_links_title_spec_witness :
    (∃ a ∈ [Anchor.mk (some "a.pdf") " My:Paper "],
      ("a.pdf", "My_Paper").2 = sanitize (if pyStrip a.text = "" then
        ((fun u => u) ((fun _ h => h) "b" (a.href.getD ""))) else pyStrip a.text)) ∧
      ∀ c ∈ ("a.pdf", "My_Paper").2.data, c ∉ badChars :=
  extract_pdf_links_title_spec (fun _ h => h) (fun u => u)
    [⟨some "a.pdf", " My:Paper "⟩] "b" ("a.pdf", "My_Paper") (by decide)

/-- C10.  Anchors with a missing or empty href never contribute an
entry: deleting them from the document does not change the extractor's
output, and a document consisting only of such an anchor yields no entry
whatever its visible text (even text containing "pdf"). -/
theorem extract_pdf_links_no_empty_href (uj : String → String → String)
    (bnp : String → String) (anchors : List Anchor) (base : String) :
    extract_pdf_links uj bnp anchors base =
        extract_pdf_links uj bnp
          (anchors.filter fun a => !(a.href.getD "" == "")) base ∧
      (∀ t : String,
        extract_pdf_links uj bnp [⟨none, t⟩] base = [] ∧
        extract_pdf_links uj bnp [⟨some "", t⟩] base = []) := by
  refine ⟨?_, fun t => ⟨rfl, rfl⟩⟩
  rw [extract_pdf_links_eq_filter_map, extract_pdf_links_eq_filter_map,
    List.filter_filter]
  have hc : ∀ a : Anchor,
      (anchorSelected a && !(a.href.getD "" == "")) = anchorSelected a := by
    intro a
    by_cases h : a.href.getD "" = ""
    · simp [anchorSelected, h, isPdfHref_empty]
    · simp [h]
  rw [List.filter_congr fun a _ => hc a]

/-- C8 witness: a failed validation on a concrete environment fetches no
bytes and creates no file. -/
theorem download_paper_validation_gate_witness :
    download_paper ⟨some ⟨404, "text/html"⟩, Except.ok [9], false, []⟩
        "http://e.com/x" none = ⟨false, [DlEvent.headProbe], none⟩ :=
  (download_paper_validation_gate ⟨some ⟨404, "text/html"⟩, Except.ok [9], false, []⟩
    "http://e.com/x" none).2 (by decide)

/-- The conference identifiers, in the dict's insertion order. -/
def confNames : List String := ["USENIX", "SP", "CCS", "NDSS"]

/-- C5.  For `currentYear ≥ 2010`, each conference's URL list is the
per-year template mapped over the years `2010, …, currentYear` in
strictly increasing order, hence has exactly `currentYear - 2010 + 1`
entries. -/
theorem generate_conference_urls_spec (currentYear : Nat)
    (h : 2010 ≤ currentYear) :
    generate_conference_urls currentYear =
        [("USENIX", (yearsRange currentYear).map usenixUrl),
         ("SP", (yearsRange currentYear).map spUrl),
         ("CCS", (yearsRange currentYear).map ccsUrl),
         ("NDSS", (yearsRange currentYear).map ndssUrl)] ∧
      yearsRange currentYear = List.range' 2010 (currentYear - 2010 + 1) ∧
      List.Pairwise (· < ·) (yearsRange currentYear) ∧
      ∀ p ∈ generate_conference_urls currentYear,
        p.2.length = currentYear - 2010 + 1 := by
  have hy : currentYear + 1 - 2010 = currentYear - 2010 + 1 := by omega
  have hl : (yearsRange currentYear).length = currentYear - 2010 + 1 := by
    rw [yearsRange, List.length_range', hy]
  refine ⟨rfl, by rw [yearsRange, hy], List.pairwise_lt_range' 2010 _, ?_⟩
  intro p hp
  simp only [generate_conference_urls, List.mem_cons, List.not_mem_nil,
    or_false] at hp
  rcases hp with rfl | rfl | rfl | rfl <;> simp [List.length_map, hl]

/-- C5 witness: with current year 2012 the years are 2010 < 2011 < 2012
and every conference gets three URLs. -/
theorem generate_conference_urls_spec_witness :
    yearsRange 2012 = List.range' 2010 (2012 - 2010 + 1) ∧
      List.Pairwise (· < ·) (yearsRange 2012) :=
  ⟨(generate_conference_urls_spec 2012 (by norm_num)).2.1,
   (generate_conference_urls_spec 2012 (by norm_num)).2.2.1⟩

/-- The inner `run` loop yields consecutive years from `2010 + i`,
stopping at the end of the URL list or at the current year, whichever
comes first. -/
theorem runYears_eq (currentYear : Nat) (urls : List String) :
    ∀ i, runYears currentYear i urls =
      List.range' (2010 + i)
        (min urls.length (currentYear + 1 - (2010 + i))) := by
  induction urls with
  | nil => intro i; simp [runYears]
  | cons u rest ih =>
    intro i
    by_cases hgt : 2010 + i > currentYear
    · have h0 : currentYear + 1 - (2010 + i) = 0 := by omega
      simp [runYears, hgt, h0]
    · have h1 : min (rest.length + 1) (currentYear + 1 - (2010 + i)) =
          min rest.length (currentYear + 1 - (2010 + i + 1)) + 1 := by omega
      simp only [runYears, hgt, if_false, ih (i + 1)]
      rw [List.length_cons, h1, List.range'_succ, Nat.add_assoc]

/-- On a URL list covering exactly the years up to the current year (as
`generate_conference_urls` produces), the inner loop's `break` never
truncates: all years `2010, …, currentYear` are attempted. -/
theorem runYears_full (currentYear : Nat) (urls : List String)
    (h : urls.length = currentYear + 1 - 2010) :
    runYears currentYear 0 urls = yearsRange currentYear := by
  rw [runYears_eq, h]
  simp [yearsRange]

/-- C7.  For `currentYear ≥ 2010`, one `run` attempts, conference by
conference in order, exactly the pairs (conference, year) for
`2010 ≤ year ≤ currentYear`: each such pair exactly once (the attempt
list is duplicate-free), years ascending within each conference, no year
beyond the current year, and `currentYear - 2010 + 1` pairs per
conference. -/
theorem run_attempts_spec (currentYear : Nat) (h : 2010 ≤ currentYear) :
    runAttempts currentYear =
        (confNames.flatMap fun c =>
          (yearsRange currentYear).map fun y => (c, y)) ∧
      (∀ p ∈ runAttempts currentYear, 2010 ≤ p.2 ∧ p.2 ≤ currentYear) ∧
      (runAttempts currentYear).Nodup ∧
      ∀ c ∈ confNames,
        ((runAttempts currentYear).filter fun p => p.1 == c).length =
          currentYear - 2010 + 1 := by
  have hru : ∀ tmpl : Nat → String,
      runYears currentYear 0 ((yearsRange currentYear).map tmpl) =
        yearsRange currentYear := by
    intro tmpl
    apply runYears_full
    rw [List.length_map, yearsRange, List.length_range']
  have hflat : runAttempts currentYear =
      confNames.flatMap fun c =>
        (yearsRange currentYear).map fun y => (c, y) := by
    simp only [runAttempts, generate_conference_urls, confNames,
      List.flatMap_cons, List.flatMap_nil, hru]
  have hdisj : ∀ c₁ c₂ : String, c₁ ≠ c₂ →
      List.Disjoint ((yearsRange currentYear).map fun y => (c₁, y))
        ((yearsRange currentYear).map fun y => (c₂, y)) := by
    intro c₁ c₂ hne a ha₁ ha₂
    rcases List.mem_map.mp ha₁ with ⟨y₁, _, rfl⟩
    rcases List.mem_map.mp ha₂ with ⟨y₂, _, heq⟩
    exact hne (congrArg Prod.fst heq).symm
  have hfl : ∀ (c c' : String) (l : List Nat),
      ((l.map fun y => (c', y)).filter fun p => p.1 == c) =
        if (c' == c) = true then l.map fun y => (c', y) else [] := by
    intro c c' l
    induction l with
    | nil => simp
    | cons y ys ih =>
      by_cases hc : (c' == c) = true <;>
        simp only [List.map_cons, List.filter_cons, hc, ih] <;> simp [hc]
  refine ⟨hflat, ?_, ?_, ?_⟩
  · intro p hp
    rw [hflat] at hp
    rcases List.mem_flatMap.mp hp with ⟨c, _, hpc⟩
    rcases List.mem_map.mp hpc with ⟨y, hy, rfl⟩
    have hyy := List.mem_range'_1.mp (by simpa [yearsRange] using hy)
    exact ⟨hyy.1, by omega⟩
  · rw [hflat]
    refine List.nodup_flatMap.mpr ⟨fun c _ => ?_, ?_⟩
    · exact List.Nodup.map (fun a b hab => congrArg Prod.snd hab)
        (List.nodup_range' 2010 _)
    · rw [show confNames = ["USENIX", "SP", "CCS", "NDSS"] from rfl]
      refine List.Pairwise.cons ?_ (List.Pairwise.cons ?_
        (List.Pairwise.cons ?_ (List.Pairwise.cons ?_ List.Pairwise.nil))) <;>
      · intro c' hc'
        fin_cases hc' <;> exact hdisj _ _ (by decide)
  · intro c hc
    rw [hflat]
    simp only [confNames, List.flatMap_cons, List.flatMap_nil,
      List.append_nil, List.filter_append, hfl, List.length_append,
      apply_ite List.length, List.length_map, List.length_nil]
    have hl : (yearsRange currentYear).length = currentYear - 2010 + 1 := by
      rw [yearsRange, List.length_range']; omega
    fin_cases hc <;> simp [hl]

/-- C7 witness: the 2012 run attempts exactly three USENIX pairs and no
pair twice. -/
theorem run_attempts_spec_witness :
    ((runAttempts 2012).filter fun p => p.1 == "USENIX").length = 3 ∧
      (runAttempts 2012).Nodup := by
  have h := run_attempts_spec 2012 (by norm_num)
  refine ⟨?_, h.2.2.1⟩
  have h3 := h.2.2.2 "USENIX" (by simp [confNames])
  simpa using h3

end Crawler
